import Mathlib

/-!
Verification of the web-traffic validation / cleaning / aggregation engine.

Shallow embedding of the repository's two logic files:
  * data_validator.py — the DataValidator class (schema / date / numeric /
    categorical / quality checks, summary statistics, and clean_data);
  * app.py — the dashboard's KPI and dimensional aggregators and the page
    quality scorer / categorizer.

Modelling conventions:
  * A pandas numeric cell is an Option ℚ: `none` models a null/NaN cell,
    `some x` a numeric value.  Pandas comparisons against NaN are false,
    sums skip NaN, clip keeps NaN, row-wise min skips NaN — each helper
    below mirrors that behaviour.
  * A float division whose divisor is 0 yields NaN or inf in the source;
    both are modelled as `none` ("undefined").
  * A DataFrame is a list of rows plus the list of column names present;
    accessing a column that is not present is a KeyError, modelled as
    `Except.error ()` when the source does not catch it.
  * Dates: the CSV's date strings parse under the fixed format
    DD-MM-YYYY HH:MM; `pd.to_datetime` replaces the string column by
    timestamps, modelled by the `DateCell` sum type.
-/

/-- Drop duplicate elements keeping the first occurrence of each, as
pandas `DataFrame.drop_duplicates` does.  `seen` accumulates the
elements already emitted. -/
def dropDupAux [DecidableEq α] (seen : List α) : List α → List α
  | [] => []
  | x :: xs => if x ∈ seen then dropDupAux seen xs else x :: dropDupAux (x :: seen) xs

/-- pandas `drop_duplicates`: keep the first occurrence of every row. -/
def dropDup [DecidableEq α] (l : List α) : List α := dropDupAux [] l

/-- pandas `Series.sum` (skipna=True): null cells contribute nothing. -/
def sumSkipNa (l : List (Option ℚ)) : ℚ := (l.filterMap id).sum

/-- pandas `Series.mean` (skipna=True): mean of the non-null cells,
NaN (`none`) when there is none. -/
def meanSkipNa (l : List (Option ℚ)) : Option ℚ :=
  let v := l.filterMap id
  if v.length = 0 then none else some (v.sum / (v.length : ℚ))

/-- pandas `a < b` on cells: false whenever either side is NaN. -/
def cellLt (a b : Option ℚ) : Bool :=
  match a, b with
  | some x, some y => decide (x < y)
  | _, _ => false

/-- pandas `a == b` against the scalar 0: false for NaN. -/
def cellEqZero (a : Option ℚ) : Bool :=
  match a with
  | some x => decide (x = 0)
  | none => false

/-- `min(axis=1)` over the two cells of a row, skipna=True: the minimum of
the non-null entries, NaN only when both are null. -/
def rowMinSkipNa (a b : Option ℚ) : Option ℚ :=
  match a, b with
  | some x, some y => some (if x ≤ y then x else y)
  | some x, none => some x
  | none, some y => some y
  | none, none => none

/-- A timestamp parsed from a DD-MM-YYYY HH:MM date string. -/
structure Timestamp where
  year : Nat
  month : Nat
  day : Nat
  hour : Nat
  minute : Nat
deriving DecidableEq, Repr

/-- Mixed-radix key: chronological order coincides with lexicographic
order on (year, month, day, hour, minute) since month < 13, day < 32,
hour < 24, minute < 60. -/
def Timestamp.key (t : Timestamp) : Nat :=
  (((t.year * 13 + t.month) * 32 + t.day) * 24 + t.hour) * 60 + t.minute

/-- A cell of the `date` column: the raw CSV string before
`pd.to_datetime`, a timestamp after it. -/
inductive DateCell where
  | raw (s : String)
  | ts (t : Timestamp)
deriving DecidableEq, Repr

/-- One row of the validator's DataFrame (data_validator.py).  The five
numeric columns are nullable. -/
structure VRow where
  date : DateCell
  page : String
  device : String
  country : String
  sessions : Option ℚ
  users : Option ℚ
  conversions : Option ℚ
  bounce_rate : Option ℚ
  avg_session_duration : Option ℚ
deriving DecidableEq, Repr

/-- The validator's DataFrame: the set of column names the loaded CSV
actually has, plus the row data.  A row field whose column is absent is
shadow data: every access is guarded by a `present` test that models the
KeyError. -/
structure DF where
  present : List String
  rows : List VRow
deriving DecidableEq, Repr

/-- data_validator.py line 34: the required column set. -/
def required_columns : List String :=
  ["date", "page", "device", "country", "sessions", "users", "bounce_rate",
   "conversions", "avg_session_duration"]

/-- clean_data step 2 predicate (line 188): `df['sessions'] > 0`.
A null sessions cell compares false, so it is dropped. -/
def sessionsPos (r : VRow) : Bool :=
  match r.sessions with
  | some s => decide (0 < s)
  | none => false

/-- clean_data step 3 (line 192): `bounce_rate.clip(0, 1)`; clip keeps NaN.
Values below 0 become 0, values above 1 become 1, the rest are kept. -/
def clip01 (b : ℚ) : ℚ := if b < 0 then 0 else if 1 < b then 1 else b

/-- clean_data step 3 (line 192) applied to one row. -/
def clampRow (r : VRow) : VRow :=
  { r with bounce_rate := r.bounce_rate.map clip01 }

/-- clean_data step 4 (line 195):
`conversions = df[['conversions','sessions']].min(axis=1)`. -/
def capRow (r : VRow) : VRow :=
  { r with conversions := rowMinSkipNa r.conversions r.sessions }

/-- clean_data step 5 (lines 198-202): `fillna(0)` on the five numeric
columns. -/
def fillRow (r : VRow) : VRow :=
  { r with
    sessions := some (r.sessions.getD 0)
    users := some (r.users.getD 0)
    conversions := some (r.conversions.getD 0)
    bounce_rate := some (r.bounce_rate.getD 0)
    avg_session_duration := some (r.avg_session_duration.getD 0) }

/-- data_validator.py lines 177-209, `DataValidator.clean_data`: dedup,
drop zero-session rows, clamp bounce_rate, cap conversions at sessions,
fill numeric nulls with 0.  (The CSV export at line 205 is I/O and not
part of the table transformation.) -/
def clean_data (l : List VRow) : List VRow :=
  ((((dropDup l).filter sessionsPos).map clampRow).map capRow).map fillRow

/-- Per-step repair counts of one cleaning run.  Modelled from the spec:
§4.2's repairSummary reports the count affected by each step; the source
prints only the duplicate count (line 185), so the remaining counts are
modelled as the rows removed or altered by the corresponding step. -/
structure RepairSummary where
  dups : Nat
  zeroSessions : Nat
  clamped : Nat
  capped : Nat
  filled : Nat
deriving DecidableEq, Repr

/-- The repair summary of running clean_data on `l`. -/
def repair_summary (l : List VRow) : RepairSummary :=
  let d1 := dropDup l
  let d2 := d1.filter sessionsPos
  let d3 := d2.map clampRow
  let d4 := d3.map capRow
  { dups := l.length - d1.length
    zeroSessions := d1.length - d2.length
    clamped := d2.countP (fun r => decide (clampRow r ≠ r))
    capped := d3.countP (fun r => decide (capRow r ≠ r))
    filled := d4.countP (fun r => decide (fillRow r ≠ r)) }

/-- Two decimal digits, or failure. -/
def twoDigits (a b : Char) : Option Nat :=
  if a.isDigit && b.isDigit then some ((a.toNat - 48) * 10 + (b.toNat - 48)) else none

/-- Four decimal digits, or failure. -/
def fourDigits (a b c d : Char) : Option Nat :=
  if a.isDigit && b.isDigit && c.isDigit && d.isDigit then
    some (((a.toNat - 48) * 10 + (b.toNat - 48)) * 100 + (c.toNat - 48) * 10 + (d.toNat - 48))
  else none

/-- Days in a month, Gregorian. -/
def daysInMonth (m y : Nat) : Nat :=
  if m = 2 then (if y % 4 = 0 && (y % 100 ≠ 0 || y % 400 = 0) then 29 else 28)
  else if m = 4 || m = 6 || m = 9 || m = 11 then 30
  else 31

/-- `pd.to_datetime(s, format='%d-%m-%Y %H:%M')` on one cell: the
zero-padded form DD-MM-YYYY HH:MM with calendar-valid fields; anything
else raises, modelled as `none`. -/
def parse_timestamp (s : String) : Option Timestamp :=
  match s.toList with
  | [a, b, '-', c, d, '-', e, f, g, h, ' ', i, j, ':', k, l] =>
    match twoDigits a b, twoDigits c d, fourDigits e f g h, twoDigits i j, twoDigits k l with
    | some dd, some mm, some yy, some hh, some nn =>
      if 1 ≤ mm && mm ≤ 12 && 1 ≤ dd && dd ≤ daysInMonth mm yy && hh ≤ 23 && nn ≤ 59 then
        some ⟨yy, mm, dd, hh, nn⟩
      else none
    | _, _, _, _, _ => none
  | _ => none

/-- `pd.to_datetime` applied to one row's date cell: a raw string is
parsed, an already-converted timestamp passes through. -/
def parseRow (r : VRow) : Option VRow :=
  match r.date with
  | .ts _ => some r
  | .raw s => (parse_timestamp s).map (fun t => { r with date := DateCell.ts t })

/-- `pd.to_datetime` over the whole date column: every cell must
convert (a single failure raises for the whole column, and the column
is only assigned when the whole conversion succeeded). -/
def parseColumn : List VRow → Option (List VRow)
  | [] => some []
  | r :: rs =>
    match parseRow r, parseColumn rs with
    | some r', some rs' => some (r' :: rs')
    | _, _ => none

/-- `date > datetime.now()` on a cell of the (parsed) date column. -/
def dateFuture (d : DateCell) (now : Timestamp) : Bool :=
  match d with
  | .ts t => decide (now.key < t.key)
  | .raw _ => false

/-- One entry of `self.issues`, mirroring the strings the validator
appends (data_validator.py lines 44, 60, 68, 91, 98, 104, 141, 147, 153). -/
inductive Issue where
  | missingColumns (cols : List String)
  | futureDates (n : Nat)
  | dateParseError
  | negativeValues (col : String) (n : Nat)
  | invalidBounce (n : Nat)
  | missingValues (col : String) (n : Nat)
  | sessionsLtUsers (n : Nat)
  | conversionsGtSessions (n : Nat)
  | zeroSessions (n : Nat)
deriving DecidableEq, Repr

/-- data_validator.py lines 32-48, `validate_columns`: the required
columns must all be present; a missing set is recorded as one issue and
the step reports failure. -/
def validate_columns (df : DF) : Bool × List Issue :=
  let missing := required_columns.filter (fun c => !decide (c ∈ df.present))
  if missing.isEmpty then (true, []) else (false, [Issue.missingColumns missing])

/-- data_validator.py lines 50-69, `validate_dates`: parse the date
column in place (this MUTATES the stored table), then count future
dates.  Every exception — a missing date column's KeyError as well as a
parse failure — is caught by the `except` clause, so this step never
aborts the run; on failure the table is left unchanged. -/
def validate_dates (df : DF) (now : Timestamp) : DF × Bool × List Issue :=
  if decide ("date" ∈ df.present) then
    match parseColumn df.rows with
    | some rows' =>
      let fc := rows'.countP (fun r => dateFuture r.date now)
      ({ df with rows := rows' }, true,
        if fc > 0 then [Issue.futureDates fc] else [])
    | none => (df, false, [Issue.dateParseError])
  else (df, false, [Issue.dateParseError])

/-- The number of future-dated records `validate_dates` would flag at
run time `now` (0 when the column is absent or fails to parse). -/
def future_count (df : DF) (now : Timestamp) : Nat :=
  if decide ("date" ∈ df.present) then
    match parseColumn df.rows with
    | some rows' => rows'.countP (fun r => dateFuture r.date now)
    | none => 0
  else 0

/-- The issues one numeric column contributes (data_validator.py lines
86-104): negative count for non-bounce columns, range count for
bounce_rate, then the null count.  The numeric-dtype test at line 80
always passes in this model, where numeric cells are parsed rationals. -/
def numeric_issues (name : String) (vals : List (Option ℚ)) (isBounce : Bool) : List Issue :=
  (if isBounce then
    (let bb := vals.countP (fun v => match v with
      | some x => decide (x < 0 ∨ 1 < x)
      | none => false)
     if bb > 0 then [Issue.invalidBounce bb] else [])
  else
    (let ng := vals.countP (fun v => match v with
      | some x => decide (x < 0)
      | none => false)
     if ng > 0 then [Issue.negativeValues name ng] else [])) ++
  (let ms := vals.countP Option.isNone
   if ms > 0 then [Issue.missingValues name ms] else [])

/-- data_validator.py lines 71-109, `validate_numeric_columns`: checks
the five numeric columns in order; accessing a column that is absent is
an uncaught KeyError, which aborts the whole run. -/
def validate_numeric_columns (df : DF) : Except Unit (Bool × List Issue) :=
  if !decide ("sessions" ∈ df.present) then .error () else
  if !decide ("users" ∈ df.present) then .error () else
  if !decide ("conversions" ∈ df.present) then .error () else
  if !decide ("bounce_rate" ∈ df.present) then .error () else
  if !decide ("avg_session_duration" ∈ df.present) then .error () else
  .ok (true,
    numeric_issues "sessions" (df.rows.map (·.sessions)) false ++
    numeric_issues "users" (df.rows.map (·.users)) false ++
    numeric_issues "conversions" (df.rows.map (·.conversions)) false ++
    numeric_issues "bounce_rate" (df.rows.map (·.bounce_rate)) true ++
    numeric_issues "avg_session_duration" (df.rows.map (·.avg_session_duration)) false)

/-- data_validator.py lines 111-125, `validate_categorical_columns`:
purely diagnostic printing over page/device/country; it appends no
issues and returns True, but a missing column is an uncaught KeyError. -/
def validate_categorical_columns (df : DF) : Except Unit Bool :=
  if !decide ("page" ∈ df.present) then .error () else
  if !decide ("device" ∈ df.present) then .error () else
  if !decide ("country" ∈ df.present) then .error () else
  .ok true

/-- data_validator.py lines 127-155, `check_data_quality`: the duplicate
percentage print divides by the row count (ZeroDivisionError on an empty
table), then the three cross-field warnings; column accesses on missing
columns are uncaught KeyErrors. -/
def check_data_quality (df : DF) : Except Unit (Bool × List Issue) :=
  if df.rows.length = 0 then .error () else
  if !decide ("sessions" ∈ df.present) then .error () else
  if !decide ("users" ∈ df.present) then .error () else
  if !decide ("conversions" ∈ df.present) then .error () else
  let c1 := df.rows.countP (fun r => cellLt r.sessions r.users)
  let c2 := df.rows.countP (fun r => cellLt r.sessions r.conversions)
  let c3 := df.rows.countP (fun r => cellEqZero r.sessions)
  .ok (true,
    (if c1 > 0 then [Issue.sessionsLtUsers c1] else []) ++
    (if c2 > 0 then [Issue.conversionsGtSessions c2] else []) ++
    (if c3 > 0 then [Issue.zeroSessions c3] else []))

/-- The scalar summary of `generate_summary_stats` (the date-range and
record-count strings are presentational; the numbers are modelled). -/
structure SummaryStats where
  totalRecords : Nat
  totalSessions : ℚ
  totalUsers : ℚ
  totalConversions : ℚ
  avgBounceRate : Option ℚ
  avgSessionDuration : Option ℚ
  overallConversionRate : Option ℚ
deriving DecidableEq, Repr

/-- data_validator.py lines 157-175, the stats dict of
`generate_summary_stats`.  Line 169 divides the conversion total by the
session total with no zero guard: a zero session total makes the float
division produce NaN/inf, modelled as `none`. -/
def summary_stats_of (rows : List VRow) : SummaryStats :=
  let ss := sumSkipNa (rows.map (·.sessions))
  let sc := sumSkipNa (rows.map (·.conversions))
  { totalRecords := rows.length
    totalSessions := ss
    totalUsers := sumSkipNa (rows.map (·.users))
    totalConversions := sc
    avgBounceRate := meanSkipNa (rows.map (·.bounce_rate))
    avgSessionDuration := meanSkipNa (rows.map (·.avg_session_duration))
    overallConversionRate := if ss = 0 then none else some (sc / ss * 100) }

/-- data_validator.py lines 157-175, `generate_summary_stats` as a
pipeline step: the date column is read first (for the date range), then
the five numeric columns; a missing one is an uncaught KeyError.  The
returned dict is always truthy, so the step reports success. -/
def generate_summary_stats (df : DF) : Except Unit (Bool × SummaryStats) :=
  if !decide ("date" ∈ df.present) then .error () else
  if !decide ("sessions" ∈ df.present) then .error () else
  if !decide ("users" ∈ df.present) then .error () else
  if !decide ("conversions" ∈ df.present) then .error () else
  if !decide ("bounce_rate" ∈ df.present) then .error () else
  if !decide ("avg_session_duration" ∈ df.present) then .error () else
  .ok (true, summary_stats_of df.rows)

/-- data_validator.py lines 211-256, `run_full_validation` after a
successful load: the six steps run in order (the loop at line 231 does
NOT break on a failed step); each section header printed at line 233 is
recorded in the trace.  An uncaught exception aborts the run, leaving
the trace of the steps started.  The interactive cleaning prompt at
lines 251-254 and all printing are I/O outside the engine.  The result
carries the final stored table, the accumulated issues and
`all_passed`. -/
def run_full_validation (df : DF) (now : Timestamp) :
    List String × Except Unit (DF × List Issue × Bool) :=
  let v1 := validate_columns df
  let v2 := validate_dates df now
  match validate_numeric_columns v2.1 with
  | .error _ =>
    (["Column Validation", "Date Validation", "Numeric Validation"], .error ())
  | .ok v3 =>
    match validate_categorical_columns v2.1 with
    | .error _ =>
      (["Column Validation", "Date Validation", "Numeric Validation",
        "Categorical Validation"], .error ())
    | .ok ok4 =>
      match check_data_quality v2.1 with
      | .error _ =>
        (["Column Validation", "Date Validation", "Numeric Validation",
          "Categorical Validation", "Quality Checks"], .error ())
      | .ok v5 =>
        match generate_summary_stats v2.1 with
        | .error _ =>
          (["Column Validation", "Date Validation", "Numeric Validation",
            "Categorical Validation", "Quality Checks", "Summary Statistics"], .error ())
        | .ok v6 =>
          (["Column Validation", "Date Validation", "Numeric Validation",
            "Categorical Validation", "Quality Checks", "Summary Statistics"],
           .ok (v2.1, v1.2 ++ v2.2.2 ++ v3.2 ++ v5.2,
             v1.1 && v2.2.1 && v3.1 && ok4 && v5.1 && v6.1))

/-- A row with its date cell blanked, for stating that validation
touches nothing but the date column. -/
def stripDate (r : VRow) : VRow := { r with date := DateCell.raw "" }

/-- The final stored table of a validation run, `none` when the run
aborted with an uncaught exception. -/
def finalTable (res : List String × Except Unit (DF × List Issue × Bool)) : Option DF :=
  match res.2 with
  | .ok (df, _, _) => some df
  | .error _ => none

/-- The issue report of a validation run (empty when the run aborted
before reporting). -/
def issuesOf (res : List String × Except Unit (DF × List Issue × Bool)) : List Issue :=
  match res.2 with
  | .ok (_, iss, _) => iss
  | .error _ => []

/-- One row of the dashboard's table after `load_data` (app.py lines
46-54): the CSV columns plus the derived calendar fields.  `date_only`
is a day index and `hour` the 0-23 hour, both derived from the parsed
timestamp at load; the dashboard path is modelled over NaN-free numeric
cells (the aggregation logic under verification never consults
nullness). -/
structure ARow where
  page : String
  device : String
  country : String
  date_only : Nat
  hour : Nat
  sessions : ℚ
  users : ℚ
  conversions : ℚ
  bounce_rate : ℚ
  avg_session_duration : ℚ
deriving DecidableEq, Repr

/-- Sum of a numeric column over a row subset. -/
def sumBy (l : List ARow) (f : ARow → ℚ) : ℚ := (l.map f).sum

/-- Mean of a numeric column over a (non-empty) row subset: pandas
groupby groups are never empty. -/
def meanBy (l : List ARow) (f : ARow → ℚ) : ℚ := (l.map f).sum / (l.length : ℚ)

/-- `conversions / sessions * 100` as written in every dimensional
aggregator of app.py (lines 87, 123, 138, 151, 454): the division has no
zero guard, so a zero session total yields NaN or inf, modelled as
`none`. -/
def div_rate (c s : ℚ) : Option ℚ := if s = 0 then none else some (c / s * 100)

/-- The KPI set of app.py lines 57-74. -/
structure Kpis where
  total_sessions : ℚ
  total_users : ℚ
  total_conversions : ℚ
  avg_bounce_rate : Option ℚ
  avg_session_duration : Option ℚ
  conversion_rate : ℚ
deriving DecidableEq, Repr

/-- app.py lines 57-74, `calculate_kpis`: totals, means, and the
conversion rate GUARDED by `if total_sessions > 0 else 0` (line 65).
The means are NaN on an empty subset. -/
def calculate_kpis (l : List ARow) : Kpis :=
  let ts := sumBy l (·.sessions)
  let tc := sumBy l (·.conversions)
  { total_sessions := ts
    total_users := sumBy l (·.users)
    total_conversions := tc
    avg_bounce_rate := if l.length = 0 then none else some (meanBy l (·.bounce_rate))
    avg_session_duration := if l.length = 0 then none else some (meanBy l (·.avg_session_duration))
    conversion_rate := if 0 < ts then tc / ts * 100 else 0 }

/-- Insertion step of the sort underlying the pandas median. -/
def insertQ (x : ℚ) : List ℚ → List ℚ
  | [] => [x]
  | y :: ys => if x ≤ y then x :: y :: ys else y :: insertQ x ys

/-- Sort a list of rationals ascending. -/
def sortQ (l : List ℚ) : List ℚ := l.foldr insertQ []

/-- pandas `Series.median` on non-null values: the middle element for
odd length, the mean of the two middle elements for even length, NaN
(`none`) for an empty series. -/
def medianQ (l : List ℚ) : Option ℚ :=
  let s := sortQ l
  let n := s.length
  if n = 0 then none
  else if n % 2 = 1 then some (s.getD (n / 2) 0)
  else some ((s.getD (n / 2 - 1) 0 + s.getD (n / 2) 0) / 2)

/-- pandas `Series.median` with skipna over possibly-NaN values. -/
def medianSkipNa (l : List (Option ℚ)) : Option ℚ := medianQ (l.filterMap id)

/-- Largest element of a non-empty list (pandas `Series.max`); 0 is the
never-used default for the empty case. -/
def maxQ : List ℚ → ℚ
  | [] => 0
  | x :: xs => xs.foldl max x

/-- The page grouping keys: distinct pages of the subset. -/
def pageKeys (l : List ARow) : List String := dropDup (l.map (·.page))

/-- The rows of one page group. -/
def pageGroup (l : List ARow) (p : String) : List ARow :=
  l.filter (fun r => decide (r.page = p))

/-- One row of `page_stats` after the groupby-aggregate of app.py lines
80-85: summed sessions and conversions, mean bounce rate and duration. -/
structure PageAgg where
  page : String
  sessions : ℚ
  conversions : ℚ
  bounce_rate : ℚ
  avg_session_duration : ℚ
deriving DecidableEq, Repr

/-- app.py lines 80-85: `df.groupby('page').agg(...)`, one aggregate row
per distinct page of the subset. -/
def page_aggs (l : List ARow) : List PageAgg :=
  (pageKeys l).map (fun p =>
    let g := pageGroup l p
    { page := p
      sessions := sumBy g (·.sessions)
      conversions := sumBy g (·.conversions)
      bounce_rate := meanBy g (·.bounce_rate)
      avg_session_duration := meanBy g (·.avg_session_duration) })

/-- app.py line 91: `page_stats['avg_session_duration'].max()`, the
normalization constant of the quality score. -/
def max_session_duration (l : List ARow) : ℚ :=
  maxQ ((page_aggs l).map (·.avg_session_duration))

/-- app.py line 95: `page_stats['sessions'].median()`. -/
def median_sessions (l : List ARow) : Option ℚ :=
  medianQ ((page_aggs l).map (·.sessions))

/-- app.py line 96: `page_stats['conversion_rate'].median()` — the
median of the per-page rates, skipping NaN rates of zero-session
pages. -/
def median_conversion_rate (l : List ARow) : Option ℚ :=
  medianSkipNa ((page_aggs l).map (fun a => div_rate a.conversions a.sessions))

/-- app.py lines 88-92: the weighted quality score.  NaN in the
conversion rate or in the duration normalization (both from division by
zero) propagates. -/
def quality_score_of (b : ℚ) (cr : Option ℚ) (d dmax : ℚ) : Option ℚ :=
  match cr, (if dmax = 0 then none else some (d / dmax)) with
  | some r, some nd => some (((1 - b) * 0.3 + (r / 100) * 0.4 + nd * 0.3) * 100)
  | _, _ => none

/-- The four page performance quadrants of app.py lines 98-106. -/
inductive Category where
  | starPerformers
  | highTrafficLowConversion
  | hiddenGems
  | needsAttention
deriving DecidableEq, Repr

/-- pandas `x >= m` where `m` may be NaN: false on NaN. -/
def geMed (x : ℚ) (m : Option ℚ) : Bool :=
  match m with
  | some v => decide (v ≤ x)
  | none => false

/-- pandas `x < m` where `m` may be NaN: false on NaN. -/
def ltMed (x : ℚ) (m : Option ℚ) : Bool :=
  match m with
  | some v => decide (x < v)
  | none => false

/-- pandas `a >= b` where both may be NaN: false on any NaN. -/
def geCell (a b : Option ℚ) : Bool :=
  match a, b with
  | some x, some y => decide (y ≤ x)
  | _, _ => false

/-- pandas `a < b` where both may be NaN: false on any NaN. -/
def ltCell (a b : Option ℚ) : Bool :=
  match a, b with
  | some x, some y => decide (x < y)
  | _, _ => false

/-- app.py lines 98-106, `categorize_page`: the if/elif chain over the
two median comparisons.  Every NaN comparison is false, so a NaN
conversion rate falls through to the final else. -/
def categorize_page (s : ℚ) (cr : Option ℚ) (meds medcr : Option ℚ) : Category :=
  if geMed s meds && geCell cr medcr then .starPerformers
  else if geMed s meds && ltCell cr medcr then .highTrafficLowConversion
  else if ltMed s meds && geCell cr medcr then .hiddenGems
  else .needsAttention

/-- One row of the final `page_stats` table (app.py lines 87-108). -/
structure PageStat where
  page : String
  sessions : ℚ
  conversions : ℚ
  bounce_rate : ℚ
  avg_session_duration : ℚ
  conversion_rate : Option ℚ
  quality_score : Option ℚ
  category : Category
deriving DecidableEq, Repr

/-- app.py lines 77-109, `analyze_page_performance`: group by page, add
the conversion-rate, quality-score and category columns. -/
def analyze_page_performance (l : List ARow) : List PageStat :=
  let dmax := max_session_duration l
  let meds := median_sessions l
  let medcr := median_conversion_rate l
  (page_aggs l).map (fun a =>
    let cr := div_rate a.conversions a.sessions
    { page := a.page
      sessions := a.sessions
      conversions := a.conversions
      bounce_rate := a.bounce_rate
      avg_session_duration := a.avg_session_duration
      conversion_rate := cr
      quality_score := quality_score_of a.bounce_rate cr a.avg_session_duration dmax
      category := categorize_page a.sessions cr meds medcr })

/-- One row of a keyed dimensional aggregate (device, country, day or
hour): the grouped sums and means plus the recomputed conversion rate. -/
structure DimStat (κ : Type) where
  key : κ
  sessions : ℚ
  users : ℚ
  conversions : ℚ
  bounce_rate : ℚ
  avg_session_duration : ℚ
  conversion_rate : Option ℚ
deriving DecidableEq, Repr

/-- Shared groupby-sum/mean shape of the dimensional aggregators.  The
users and duration columns are only aggregated where the corresponding
source function requests them; the unused fields of the narrower
aggregations are filled by the same sums, which the narrower projections
below simply do not expose. -/
def dimStats [DecidableEq κ] (l : List ARow) (key : ARow → κ) : List (DimStat κ) :=
  (dropDup (l.map key)).map (fun k =>
    let g := l.filter (fun r => decide (key r = k))
    { key := k
      sessions := sumBy g (·.sessions)
      users := sumBy g (·.users)
      conversions := sumBy g (·.conversions)
      bounce_rate := meanBy g (·.bounce_rate)
      avg_session_duration := meanBy g (·.avg_session_duration)
      conversion_rate := div_rate (sumBy g (·.conversions)) (sumBy g (·.sessions)) })

/-- app.py lines 112-124, `analyze_device_performance`. -/
def analyze_device_performance (l : List ARow) : List (DimStat String) :=
  dimStats l (·.device)

/-- app.py lines 127-139, `analyze_country_performance`. -/
def analyze_country_performance (l : List ARow) : List (DimStat String) :=
  dimStats l (·.country)

/-- app.py lines 142-152, `analyze_time_trends`: the daily grouping. -/
def analyze_time_trends (l : List ARow) : List (DimStat Nat) :=
  dimStats l (·.date_only)

/-- app.py lines 449-454: the hour-of-day grouping of the Time Analysis
tab. -/
def hourly_performance (l : List ARow) : List (DimStat Nat) :=
  dimStats l (·.hour)

/-! Concrete tables used to instantiate and to refute the stated
properties. -/

/-- A well-formed raw record (valid date, consistent numerics). -/
def sampleRow : VRow :=
  { date := .raw "15-03-2024 10:30"
    page := "Home"
    device := "Desktop"
    country := "US"
    sessions := some 5
    users := some 3
    conversions := some 1
    bounce_rate := some 0
    avg_session_duration := some 30 }

/-- A record with an out-of-range bounce rate of 2. -/
def bounceRowA : VRow := { sampleRow with bounce_rate := some 2 }

/-- Identical to `bounceRowA` except for a bounce rate of 3: cleaning
clamps both bounce rates to 1 and thereby makes the two rows equal. -/
def bounceRowB : VRow := { sampleRow with bounce_rate := some 3 }

/-- A record whose sessions cell is null. -/
def nullSessionsRow : VRow := { sampleRow with sessions := none }

/-- A fully-loaded validator table with one well-formed record. -/
def sampleDF : DF := { present := required_columns, rows := [sampleRow] }

/-- `sampleDF` with its sessions column absent (the row's sessions field
is shadow data that no check reaches before the KeyError). -/
def noSessionsDF : DF :=
  { present := ["date", "page", "device", "country", "users", "bounce_rate",
                "conversions", "avg_session_duration"]
    rows := [sampleRow] }

/-- A validation run time later than `sampleRow`'s timestamp. -/
def lateNow : Timestamp := ⟨2025, 1, 1, 0, 0⟩

/-- A validation run time earlier than `sampleRow`'s timestamp, making
that record a "future date". -/
def earlyNow : Timestamp := ⟨2024, 1, 1, 0, 0⟩

/-- A second run time later than `lateNow`, still after `sampleRow`'s
timestamp. -/
def laterNow : Timestamp := ⟨2026, 1, 1, 0, 0⟩

/-- The stored table after validating `sampleDF`: the date string has
been parsed in place. -/
def sampleDFParsed : DF :=
  { present := required_columns
    rows := [{ sampleRow with date := .ts ⟨2024, 3, 15, 10, 30⟩ }] }

/-- A dashboard record whose sessions count is zero. -/
def zeroSessionsARow : ARow :=
  { page := "A"
    device := "D"
    country := "US"
    date_only := 1
    hour := 3
    sessions := 0
    users := 1
    conversions := 0
    bounce_rate := 0
    avg_session_duration := 1 }

/-- A raw dashboard record with more conversions than sessions (the
validator only warns about such rows; the dashboard loads them as is). -/
def overConvARow : ARow := { zeroSessionsARow with sessions := 10, conversions := 20 }

/-- A well-formed dashboard record. -/
def okARow : ARow :=
  { zeroSessionsARow with
    sessions := 4
    conversions := 1
    avg_session_duration := 2 }

/-- The page aggregate of the one-record table `[zeroSessionsARow]`:
its summed sessions are 0, so its conversion rate and quality score are
undefined and it falls into the final else of the categorizer. -/
def zeroPageStat : PageStat :=
  { page := "A"
    sessions := 0
    conversions := 0
    bounce_rate := 0
    avg_session_duration := 1
    conversion_rate := none
    quality_score := none
    category := .needsAttention }

/-- The device aggregate of `[zeroSessionsARow]`. -/
def zeroDevStat : DimStat String :=
  { key := "D"
    sessions := 0
    users := 1
    conversions := 0
    bounce_rate := 0
    avg_session_duration := 1
    conversion_rate := none }

/-- The country aggregate of `[zeroSessionsARow]`. -/
def zeroCountryStat : DimStat String := { zeroDevStat with key := "US" }

/-- The daily aggregate of `[zeroSessionsARow]`. -/
def zeroDayStat : DimStat Nat :=
  { key := 1
    sessions := 0
    users := 1
    conversions := 0
    bounce_rate := 0
    avg_session_duration := 1
    conversion_rate := none }

/-- The hourly aggregate of `[zeroSessionsARow]`. -/
def zeroHourStat : DimStat Nat := { zeroDayStat with key := 3 }

/-- The page stat of the one-record table `[okARow]`: conversion rate
1/4*100 = 25, quality score (0.3 + 0.1 + 0.3)*100 = 70, a star
performer by the tie-at-median rule. -/
def okPageStat : PageStat :=
  { page := "A"
    sessions := 4
    conversions := 1
    bounce_rate := 0
    avg_session_duration := 2
    conversion_rate := some 25
    quality_score := some 70
    category := .starPerformers }

/-! Helper lemmas about the cleaner. -/

theorem map_eq_self_of {α : Type} (f : α → α) :
    ∀ l : List α, (∀ x ∈ l, f x = x) → l.map f = l := by
  intro l
  induction l with
  | nil => intro _; rfl
  | cons x xs ih =>
    intro h
    simp only [List.map_cons]
    rw [h x (List.mem_cons_self x xs), ih (fun y hy => h y (List.mem_cons_of_mem x hy))]

theorem dropDupAux_eq_self [DecidableEq α] :
    ∀ (l seen : List α), l.Nodup → (∀ x ∈ l, x ∉ seen) → dropDupAux seen l = l := by
  intro l
  induction l with
  | nil => intro seen _ _; rfl
  | cons x xs ih =>
    intro seen hnd hs
    have hx : x ∉ seen := hs x (List.mem_cons_self x xs)
    simp only [dropDupAux, if_neg hx]
    rw [ih (x :: seen) (List.Nodup.of_cons hnd)]
    intro y hy
    simp only [List.mem_cons, not_or]
    exact ⟨fun he => (List.nodup_cons.mp hnd).1 (he ▸ hy), hs y (List.mem_cons_of_mem x hy)⟩

theorem mem_of_mem_dropDupAux [DecidableEq α] :
    ∀ (l seen : List α) (x : α), x ∈ dropDupAux seen l → x ∈ l := by
  intro l
  induction l with
  | nil => intro seen x h; exact absurd h (by simp [dropDupAux])
  | cons y ys ih =>
    intro seen x h
    simp only [dropDupAux] at h
    by_cases hy : y ∈ seen
    · rw [if_pos hy] at h
      exact List.mem_cons_of_mem y (ih seen x h)
    · rw [if_neg hy] at h
      rcases List.mem_cons.mp h with he | hm
      · exact he ▸ List.mem_cons_self y ys
      · exact List.mem_cons_of_mem y (ih (y :: seen) x hm)

theorem mem_dropDupAux_or [DecidableEq α] :
    ∀ (l seen : List α) (x : α), x ∈ l → x ∈ seen ∨ x ∈ dropDupAux seen l := by
  intro l
  induction l with
  | nil => intro seen x h; exact absurd h (List.not_mem_nil x)
  | cons y ys ih =>
    intro seen x h
    simp only [dropDupAux]
    by_cases hy : y ∈ seen
    · rw [if_pos hy]
      rcases List.mem_cons.mp h with he | hm
      · exact Or.inl (he ▸ hy)
      · exact ih seen x hm
    · rw [if_neg hy]
      rcases List.mem_cons.mp h with he | hm
      · exact Or.inr (he ▸ List.mem_cons_self y _)
      · rcases ih (y :: seen) x hm with hs | hd
        · rcases List.mem_cons.mp hs with he | hs'
          · exact Or.inr (he ▸ List.mem_cons_self y _)
          · exact Or.inl hs'
        · exact Or.inr (List.mem_cons_of_mem y hd)

theorem mem_dropDup_of_mem [DecidableEq α] {l : List α} {x : α} (h : x ∈ l) :
    x ∈ dropDup l := by
  rcases mem_dropDupAux_or l [] x h with hs | hd
  · exact absurd hs (List.not_mem_nil x)
  · exact hd

/-- Decompose membership in a cleaned table into the surviving source
row and the three per-row repairs applied to it. -/
theorem mem_clean_data {l : List VRow} {r : VRow} (h : r ∈ clean_data l) :
    ∃ r0, (r0 ∈ dropDup l ∧ sessionsPos r0 = true) ∧
      r = fillRow (capRow (clampRow r0)) := by
  simp only [clean_data, List.mem_map] at h
  obtain ⟨r2, ⟨r1, ⟨r0, hr0, rfl⟩, rfl⟩, rfl⟩ := h
  exact ⟨r0, List.mem_filter.mp hr0, rfl⟩

/-- The numeric invariants of one fully repaired surviving row. -/
theorem cleaned_row_spec (r : VRow) (h : sessionsPos r = true) :
    ∃ s c b, (fillRow (capRow (clampRow r))).sessions = some s ∧
      (fillRow (capRow (clampRow r))).conversions = some c ∧
      (fillRow (capRow (clampRow r))).bounce_rate = some b ∧
      0 < s ∧ c ≤ s ∧ 0 ≤ b ∧ b ≤ 1 := by
  obtain ⟨d, pg, dv, ct, s?, u?, c?, b?, a?⟩ := r
  cases s? with
  | none => simp [sessionsPos] at h
  | some s =>
    simp only [sessionsPos, decide_eq_true_eq] at h
    have clip_mem : ∀ b : ℚ, 0 ≤ clip01 b ∧ clip01 b ≤ 1 := by
      intro b
      unfold clip01
      split_ifs with hb0 hb1
      · exact ⟨le_refl 0, zero_le_one⟩
      · exact ⟨zero_le_one, le_refl 1⟩
      · exact ⟨le_of_not_lt hb0, le_of_not_lt hb1⟩
    have cap_le : ∀ c : ℚ, (if c ≤ s then c else s) ≤ s := by
      intro c
      split_ifs with hc
      · exact hc
      · exact le_refl s
    cases c? with
    | none =>
      cases b? with
      | none =>
        exact ⟨s, s, 0, rfl, rfl, rfl, h, le_refl s, le_refl 0, zero_le_one⟩
      | some b =>
        exact ⟨s, s, clip01 b, rfl, rfl, rfl, h, le_refl s, (clip_mem b).1, (clip_mem b).2⟩
    | some c =>
      cases b? with
      | none =>
        exact ⟨s, if c ≤ s then c else s, 0, rfl, rfl, rfl, h, cap_le c, le_refl 0,
          zero_le_one⟩
      | some b =>
        exact ⟨s, if c ≤ s then c else s, clip01 b, rfl, rfl, rfl, h, cap_le c,
          (clip_mem b).1, (clip_mem b).2⟩

/-- Clamping is the identity on a row whose bounce rate is already a
value in [0, 1]. -/
theorem clampRow_eq_self {r : VRow} {b : ℚ} (hb : r.bounce_rate = some b)
    (h0 : 0 ≤ b) (h1 : b ≤ 1) : clampRow r = r := by
  obtain ⟨d, pg, dv, ct, s?, u?, c?, b?, a?⟩ := r
  simp only at hb
  subst hb
  simp [clampRow, clip01, not_lt.mpr h0, not_lt.mpr h1]

/-- Capping is the identity on a row whose conversions already do not
exceed its sessions. -/
theorem capRow_eq_self {r : VRow} {c s : ℚ} (hc : r.conversions = some c)
    (hs : r.sessions = some s) (h : c ≤ s) : capRow r = r := by
  obtain ⟨d, pg, dv, ct, s?, u?, c?, b?, a?⟩ := r
  simp only at hc hs
  subst hc; subst hs
  simp [capRow, rowMinSkipNa, if_pos h]

/-- Null filling is the identity on a row with no null numeric cell. -/
theorem fillRow_eq_self {r : VRow} (hs : r.sessions.isSome) (hu : r.users.isSome)
    (hc : r.conversions.isSome) (hb : r.bounce_rate.isSome)
    (ha : r.avg_session_duration.isSome) : fillRow r = r := by
  obtain ⟨d, pg, dv, ct, s?, u?, c?, b?, a?⟩ := r
  cases s? <;> cases u? <;> cases c? <;> cases b? <;> cases a? <;>
    simp_all [fillRow]

/-- The users and duration cells of a cleaned row are never null (the
final fillna step wrote them). -/
theorem cleaned_row_some_aux (r : VRow) :
    (fillRow r).users.isSome ∧ (fillRow r).avg_session_duration.isSome := by
  obtain ⟨d, pg, dv, ct, s?, u?, c?, b?, a?⟩ := r
  exact ⟨rfl, rfl⟩

/-- C1.  For every input table, every row of the cleaned table returned
by clean_data has a non-null sessions value strictly greater than 0,
conversions at most sessions, and a bounce rate within [0, 1]
(data_validator.py lines 177-209). -/
theorem cleaned_rows_satisfy_invariants (l : List VRow) (r : VRow)
    (h : r ∈ clean_data l) :
    ∃ s c b, r.sessions = some s ∧ r.conversions = some c ∧ r.bounce_rate = some b ∧
      0 < s ∧ c ≤ s ∧ 0 ≤ b ∧ b ≤ 1 := by
  obtain ⟨r0, ⟨_, hp⟩, rfl⟩ := mem_clean_data h
  exact cleaned_row_spec r0 hp

/-- Witness: the invariants hold of the concrete cleaned table of one
well-formed record. -/
theorem cleaned_rows_satisfy_invariants_witness :
    sampleRow ∈ clean_data [sampleRow] ∧
    ∃ s c b, sampleRow.sessions = some s ∧ sampleRow.conversions = some c ∧
      sampleRow.bounce_rate = some b ∧ 0 < s ∧ c ≤ s ∧ 0 ≤ b ∧ b ≤ 1 :=
  ⟨by decide, cleaned_rows_satisfy_invariants [sampleRow] sampleRow (by decide)⟩

/-- C10.  The sessions > 0 filter of clean_data step 2 excludes null
sessions cells (a NaN comparison is false), so a cleaned table never
contains a null or zero sessions value: the fillna step never applies
to the sessions column. -/
theorem cleaning_drops_null_sessions :
    (∀ r : VRow, r.sessions = none → sessionsPos r = false) ∧
    ∀ (l : List VRow) (r : VRow), r ∈ clean_data l →
      r.sessions ≠ none ∧ r.sessions ≠ some 0 := by
  constructor
  · intro r h
    simp [sessionsPos, h]
  · intro l r h
    obtain ⟨r0, ⟨_, hp⟩, rfl⟩ := mem_clean_data h
    obtain ⟨s, c, b, hs, _, _, h0s, _⟩ := cleaned_row_spec r0 hp
    rw [hs]
    refine ⟨Option.some_ne_none s, ?_⟩
    simp only [Ne, Option.some.injEq]
    intro he
    exact absurd (he ▸ h0s) (lt_irrefl 0)

/-- Witness: a null-sessions record fails the filter, and the cleaned
table of a table containing one has no null or zero sessions cell. -/
theorem cleaning_drops_null_sessions_witness :
    sessionsPos nullSessionsRow = false ∧
    (sampleRow.sessions ≠ none ∧ sampleRow.sessions ≠ some 0) :=
  ⟨cleaning_drops_null_sessions.1 nullSessionsRow (by decide),
   cleaning_drops_null_sessions.2 [sampleRow, nullSessionsRow] sampleRow (by decide)⟩

/-- Rows of a cleaned table pass the sessions filter and are fixed
points of all three per-row repairs. -/
theorem clean_data_rows_fixed {l : List VRow} {r : VRow} (h : r ∈ clean_data l) :
    sessionsPos r = true ∧ clampRow r = r ∧ capRow r = r ∧ fillRow r = r := by
  obtain ⟨r0, ⟨_, hp⟩, rfl⟩ := mem_clean_data h
  obtain ⟨s, c, b, hs, hc, hb, h0s, hcs, hb0, hb1⟩ := cleaned_row_spec r0 hp
  have hsome := cleaned_row_some_aux (capRow (clampRow r0))
  refine ⟨?_, clampRow_eq_self hb hb0 hb1, capRow_eq_self hc hs hcs,
    fillRow_eq_self (hs ▸ rfl) hsome.1 (hc ▸ rfl) (hb ▸ rfl) hsome.2⟩
  simp [sessionsPos, hs, h0s]

/-- C4 (counterexample).  Cleaning is NOT idempotent: clamping merges
the two rows that differ only in their out-of-range bounce rates into
equal rows, and the second cleaning pass then deduplicates them. -/
theorem cleaning_not_idempotent_counterexample :
    clean_data (clean_data [bounceRowA, bounceRowB]) ≠
      clean_data [bounceRowA, bounceRowB] := by decide

/-- C4 (amended).  Cleaning is idempotent on every table whose cleaned
form is duplicate-free (value repair may merge distinct rows into
duplicates, the one way a second pass can differ): there
clean(clean(T)) = clean(T) and re-cleaning reports an empty repair
summary. -/
theorem cleaning_idempotent_amended (l : List VRow) (h : (clean_data l).Nodup) :
    clean_data (clean_data l) = clean_data l ∧
    repair_summary (clean_data l) = ⟨0, 0, 0, 0, 0⟩ := by
  have hfix : ∀ r ∈ clean_data l,
      sessionsPos r = true ∧ clampRow r = r ∧ capRow r = r ∧ fillRow r = r :=
    fun r hr => clean_data_rows_fixed hr
  have h1 : dropDup (clean_data l) = clean_data l :=
    dropDupAux_eq_self _ [] h (fun x _ => List.not_mem_nil x)
  have h2 : (clean_data l).filter sessionsPos = clean_data l :=
    List.filter_eq_self.mpr (fun r hr => (hfix r hr).1)
  have h3 : (clean_data l).map clampRow = clean_data l :=
    map_eq_self_of _ _ (fun r hr => (hfix r hr).2.1)
  have h4 : (clean_data l).map capRow = clean_data l :=
    map_eq_self_of _ _ (fun r hr => (hfix r hr).2.2.1)
  have h5 : (clean_data l).map fillRow = clean_data l :=
    map_eq_self_of _ _ (fun r hr => (hfix r hr).2.2.2)
  have cz : ∀ f : VRow → VRow, (∀ r ∈ clean_data l, f r = r) →
      (clean_data l).countP (fun r => decide (f r ≠ r)) = 0 := by
    intro f hf
    apply List.countP_eq_zero.mpr
    intro a ha
    rw [hf a ha]
    simp
  constructor
  · show ((((dropDup (clean_data l)).filter sessionsPos).map clampRow).map capRow).map
      fillRow = clean_data l
    rw [h1, h2, h3, h4, h5]
  · simp only [repair_summary]
    rw [h1, h2, h3, h4,
      cz clampRow (fun r hr => (hfix r hr).2.1),
      cz capRow (fun r hr => (hfix r hr).2.2.1),
      cz fillRow (fun r hr => (hfix r hr).2.2.2)]
    simp

/-- Witness: a table whose cleaned form is duplicate-free, on which the
amended idempotence holds. -/
theorem cleaning_idempotent_amended_witness :
    (clean_data [sampleRow, bounceRowA]).Nodup ∧
    (clean_data (clean_data [sampleRow, bounceRowA]) = clean_data [sampleRow, bounceRowA] ∧
     repair_summary (clean_data [sampleRow, bounceRowA]) = ⟨0, 0, 0, 0, 0⟩) :=
  ⟨by decide, cleaning_idempotent_amended [sampleRow, bounceRowA] (by decide)⟩

/-! Helper lemmas about the validation pipeline. -/

/-- Converting a date cell changes nothing but the date. -/
theorem parseRow_strip {r r' : VRow} (h : parseRow r = some r') :
    stripDate r' = stripDate r := by
  obtain ⟨d, pg, dv, ct, s?, u?, c?, b?, a?⟩ := r
  cases d with
  | ts t =>
    simp only [parseRow] at h
    cases h
    rfl
  | raw s =>
    simp only [parseRow] at h
    cases hp : parse_timestamp s with
    | none => rw [hp] at h; cases h
    | some t =>
      rw [hp] at h
      simp only [Option.map_some'] at h
      cases h
      rfl

/-- Converting the date column changes nothing but the dates. -/
theorem parseColumn_strip :
    ∀ {rows rows' : List VRow}, parseColumn rows = some rows' →
      rows'.map stripDate = rows.map stripDate := by
  intro rows
  induction rows with
  | nil =>
    intro rows' h
    cases h
    rfl
  | cons r rs ih =>
    intro rows' h
    unfold parseColumn at h
    cases hr : parseRow r with
    | none => rw [hr] at h; cases h
    | some r1 =>
      rw [hr] at h
      cases hc : parseColumn rs with
      | none => rw [hc] at h; cases h
      | some rs1 =>
        rw [hc] at h
        cases h
        simp only [List.map_cons]
        rw [parseRow_strip hr, ih hc]

/-- The date-validation step can change only the date column, and never
the column set. -/
theorem validate_dates_frame (df : DF) (now : Timestamp) :
    (validate_dates df now).1.present = df.present ∧
    (validate_dates df now).1.rows.map stripDate = df.rows.map stripDate := by
  unfold validate_dates
  split_ifs with hd
  · cases hc : parseColumn df.rows with
    | none => exact ⟨rfl, rfl⟩
    | some rows' => exact ⟨rfl, parseColumn_strip hc⟩
  · exact ⟨rfl, rfl⟩

/-- A numeric validation that did not raise found all five numeric
columns present. -/
theorem validate_numeric_ok_present {df : DF} {x : Bool × List Issue}
    (h : validate_numeric_columns df = .ok x) :
    "sessions" ∈ df.present ∧ "users" ∈ df.present ∧ "conversions" ∈ df.present ∧
    "bounce_rate" ∈ df.present ∧ "avg_session_duration" ∈ df.present := by
  unfold validate_numeric_columns at h
  split_ifs at h with h1 h2 h3 h4 h5
  simp only [Bool.not_eq_true', decide_eq_false_iff_not, not_not] at h1 h2 h3 h4 h5
  exact ⟨h1, h2, h3, h4, h5⟩

/-- A categorical validation that did not raise found the three
categorical columns present. -/
theorem validate_categorical_ok_present {df : DF} {x : Bool}
    (h : validate_categorical_columns df = .ok x) :
    "page" ∈ df.present ∧ "device" ∈ df.present ∧ "country" ∈ df.present := by
  unfold validate_categorical_columns at h
  split_ifs at h with h1 h2 h3
  simp only [Bool.not_eq_true', decide_eq_false_iff_not, not_not] at h1 h2 h3
  exact ⟨h1, h2, h3⟩

/-- A summary-statistics step that did not raise found the date column
present. -/
theorem generate_summary_ok_present {df : DF} {x : Bool × SummaryStats}
    (h : generate_summary_stats df = .ok x) : "date" ∈ df.present := by
  unfold generate_summary_stats at h
  split_ifs at h with h1 h2 h3 h4 h5 h6
  simp only [Bool.not_eq_true', decide_eq_false_iff_not, not_not] at h1
  exact h1

/-- When every required column is present, the schema check passes. -/
theorem validate_columns_true (df : DF)
    (hall : ∀ c ∈ required_columns, c ∈ df.present) :
    (validate_columns df).1 = true := by
  unfold validate_columns
  have : required_columns.filter (fun c => !decide (c ∈ df.present)) = [] := by
    apply List.filter_eq_nil_iff.mpr
    intro c hc
    simp [hall c hc]
  rw [this]
  rfl

/-- The run time enters the date-validation step only through the
future-date count. -/
theorem validate_dates_time (df : DF) (n1 n2 : Timestamp)
    (h : future_count df n1 = future_count df n2) :
    validate_dates df n1 = validate_dates df n2 := by
  unfold future_count at h
  unfold validate_dates
  split_ifs at h ⊢ with hd
  · cases hc : parseColumn df.rows with
    | none => rfl
    | some rows' =>
      simp only [hc] at h ⊢
      rw [h]
  · rfl

/-- C6 (counterexample).  Validation does mutate its input table: on a
well-formed table the run succeeds and the stored table it leaves
behind differs from the loaded one — `validate_dates` has replaced the
date strings by timestamps in place. -/
theorem validation_mutates_counterexample :
    finalTable (run_full_validation sampleDF lateNow) = some sampleDFParsed ∧
    sampleDFParsed ≠ sampleDF := by decide

/-- C6 (amended).  The only mutation the validation pipeline performs
on its table is the in-place parsing of the date column: a successful
run preserves the column set, the row count and order, and every
non-date field of every row. -/
theorem validation_mutates_only_date (df : DF) (now : Timestamp) (out : DF)
    (iss : List Issue) (b : Bool)
    (h : (run_full_validation df now).2 = Except.ok (out, iss, b)) :
    out.present = df.present ∧ out.rows.map stripDate = df.rows.map stripDate := by
  have hf := validate_dates_frame df now
  simp only [run_full_validation] at h
  cases hn : validate_numeric_columns (validate_dates df now).1 with
  | error e => simp [hn] at h
  | ok v3 =>
    cases hc2 : validate_categorical_columns (validate_dates df now).1 with
    | error e => simp [hn, hc2] at h
    | ok ok4 =>
      cases hq : check_data_quality (validate_dates df now).1 with
      | error e => simp [hn, hc2, hq] at h
      | ok v5 =>
        cases hs : generate_summary_stats (validate_dates df now).1 with
        | error e => simp [hn, hc2, hq, hs] at h
        | ok v6 =>
          simp only [hn, hc2, hq, hs, Except.ok.injEq, Prod.mk.injEq] at h
          obtain ⟨hdf, -⟩ := h
          rw [← hdf]
          exact hf

/-- Witness: on the concrete well-formed table the successful run
preserves the column set and all non-date data. -/
theorem validation_mutates_only_date_witness :
    sampleDFParsed.present = sampleDF.present ∧
    sampleDFParsed.rows.map stripDate = sampleDF.rows.map stripDate :=
  validation_mutates_only_date sampleDF lateNow sampleDFParsed [] true (by rfl)

/-- C7 (counterexample).  A missing required column does NOT halt
validation after the schema check: with the sessions column absent the
schema check reports failure, yet the date check (and the start of the
numeric check) still runs; the run then aborts with an uncaught
KeyError instead of returning a report. -/
theorem schema_halting_counterexample :
    (validate_columns noSessionsDF).1 = false ∧
    "Date Validation" ∈ (run_full_validation noSessionsDF lateNow).1 ∧
    "Numeric Validation" ∈ (run_full_validation noSessionsDF lateNow).1 ∧
    finalTable (run_full_validation noSessionsDF lateNow) = none := by decide

/-- C7 (amended).  When a required column is missing, the schema check
records the issue and reports failure, but run_full_validation does not
halt: the date-validation step still runs, and the pipeline instead
aborts with an uncaught error at the first later step that touches a
missing column, so no report is returned. -/
theorem schema_failure_does_not_halt (df : DF) (now : Timestamp)
    (h : (validate_columns df).1 = false) :
    "Date Validation" ∈ (run_full_validation df now).1 ∧
    (run_full_validation df now).2 = Except.error () := by
  have hp2 : (validate_dates df now).1.present = df.present := (validate_dates_frame df now).1
  simp only [run_full_validation]
  cases hn : validate_numeric_columns (validate_dates df now).1 with
  | error e => exact ⟨by simp, rfl⟩
  | ok v3 =>
    cases hc : validate_categorical_columns (validate_dates df now).1 with
    | error e => exact ⟨by simp, rfl⟩
    | ok ok4 =>
      cases hq : check_data_quality (validate_dates df now).1 with
      | error e => exact ⟨by simp, rfl⟩
      | ok v5 =>
        cases hs : generate_summary_stats (validate_dates df now).1 with
        | error e => exact ⟨by simp, rfl⟩
        | ok v6 =>
          exfalso
          have hnum := validate_numeric_ok_present hn
          have hcat := validate_categorical_ok_present hc
          have hdate := generate_summary_ok_present hs
          rw [hp2] at hnum hcat hdate
          have htrue : (validate_columns df).1 = true := by
            apply validate_columns_true
            intro c hcm
            simp only [required_columns, List.mem_cons, List.not_mem_nil, or_false] at hcm
            rcases hcm with rfl | rfl | rfl | rfl | rfl | rfl | rfl | rfl | rfl
            · exact hdate
            · exact hcat.1
            · exact hcat.2.1
            · exact hcat.2.2
            · exact hnum.1
            · exact hnum.2.1
            · exact hnum.2.2.2.1
            · exact hnum.2.2.1
            · exact hnum.2.2.2.2
          rw [htrue] at h
          cases h

/-- Witness: the amended statement at the concrete table with a
missing sessions column. -/
theorem schema_failure_does_not_halt_witness :
    "Date Validation" ∈ (run_full_validation noSessionsDF earlyNow).1 ∧
    (run_full_validation noSessionsDF earlyNow).2 = Except.error () :=
  schema_failure_does_not_halt noSessionsDF earlyNow (by decide)

/-- C8 (counterexample).  Validation is not a function of the input
table alone: the same table validated at two run times yields different
reports, because the future-date check compares against the clock. -/
theorem validation_time_counterexample :
    issuesOf (run_full_validation sampleDF earlyNow) ≠
      issuesOf (run_full_validation sampleDF lateNow) := by decide

/-- C8 (amended).  A validation run is deterministic in the pair
(table, run time), and its run-time dependence is exactly the
future-date count: two runs on the same table whose future-date counts
agree produce identical traces, tables, reports and flags.  The
dashboard aggregations take no clock input at all. -/
theorem validation_deterministic_amended (df : DF) (n1 n2 : Timestamp)
    (h : future_count df n1 = future_count df n2) :
    run_full_validation df n1 = run_full_validation df n2 := by
  unfold run_full_validation
  rw [validate_dates_time df n1 n2 h]

/-- Witness: two distinct run times with equal future-date counts give
identical runs on the concrete table. -/
theorem validation_deterministic_amended_witness :
    future_count sampleDF lateNow = future_count sampleDF laterNow ∧
    run_full_validation sampleDF lateNow = run_full_validation sampleDF laterNow :=
  ⟨by decide, validation_deterministic_amended sampleDF lateNow laterNow (by decide)⟩

/-- C9.  The summary-statistics step divides total conversions by total
sessions with no zero guard (data_validator.py line 169): a table whose
sessions sum to zero makes the overall conversion rate undefined, while
the dashboard KPI aggregator (app.py line 65) guards the same division
and returns 0. -/
theorem summary_rate_unguarded_kpi_guarded (rows : List VRow) (l : List ARow)
    (h1 : sumSkipNa (rows.map (·.sessions)) = 0)
    (h2 : sumBy l (·.sessions) = 0) :
    (summary_stats_of rows).overallConversionRate = none ∧
    (calculate_kpis l).conversion_rate = 0 := by
  constructor
  · simp [summary_stats_of, h1]
  · simp [calculate_kpis, h2]

/-- Witness: a table of one null-sessions record (sessions sum 0) and a
dashboard subset of one zero-sessions record. -/
theorem summary_rate_unguarded_kpi_guarded_witness :
    sumSkipNa ([nullSessionsRow].map (·.sessions)) = 0 ∧
    sumBy [zeroSessionsARow] (·.sessions) = 0 ∧
    ((summary_stats_of [nullSessionsRow]).overallConversionRate = none ∧
     (calculate_kpis [zeroSessionsARow]).conversion_rate = 0) :=
  ⟨by simp [sumSkipNa, nullSessionsRow],
   by simp [sumBy, zeroSessionsARow],
   summary_rate_unguarded_kpi_guarded [nullSessionsRow] [zeroSessionsARow]
     (by simp [sumSkipNa, nullSessionsRow]) (by simp [sumBy, zeroSessionsARow])⟩

/-! Helper lemmas about the dashboard aggregators. -/

theorem sumBy_nonneg (g : List ARow) (f : ARow → ℚ) (h : ∀ r ∈ g, 0 ≤ f r) :
    0 ≤ sumBy g f :=
  List.sum_nonneg (by
    intro x hx
    obtain ⟨r, hr, rfl⟩ := List.mem_map.mp hx
    exact h r hr)

theorem sumBy_le_sumBy (g : List ARow) (f f' : ARow → ℚ) (h : ∀ r ∈ g, f r ≤ f' r) :
    sumBy g f ≤ sumBy g f' :=
  List.sum_le_sum h

theorem single_le_sumBy (g : List ARow) (f : ARow → ℚ) (h : ∀ r ∈ g, 0 ≤ f r)
    {r : ARow} (hr : r ∈ g) : f r ≤ sumBy g f :=
  List.single_le_sum (by
    intro x hx
    obtain ⟨r', hr', rfl⟩ := List.mem_map.mp hx
    exact h r' hr') (f r) (List.mem_map.mpr ⟨r, hr, rfl⟩)

theorem sumBy_pos (g : List ARow) (f : ARow → ℚ) (h0 : ∀ r ∈ g, 0 ≤ f r)
    {r : ARow} (hr : r ∈ g) (hp : 0 < f r) : 0 < sumBy g f :=
  lt_of_lt_of_le hp (single_le_sumBy g f h0 hr)

theorem sumBy_all_pos (g : List ARow) (f : ARow → ℚ) (hne : g ≠ [])
    (h : ∀ r ∈ g, 0 < f r) : 0 < sumBy g f := by
  cases g with
  | nil => exact absurd rfl hne
  | cons r rs =>
    exact sumBy_pos (r :: rs) f (fun x hx => le_of_lt (h x hx))
      (List.mem_cons_self r rs) (h r (List.mem_cons_self r rs))

theorem sumBy_le_mul (g : List ARow) (f : ARow → ℚ) (hi : ℚ)
    (h : ∀ r ∈ g, f r ≤ hi) : sumBy g f ≤ (g.length : ℚ) * hi := by
  induction g with
  | nil => simp [sumBy]
  | cons r rs ih =>
    have h1 := h r (List.mem_cons_self r rs)
    have h2 := ih (fun x hx => h x (List.mem_cons_of_mem r hx))
    simp only [sumBy, List.map_cons, List.sum_cons, List.length_cons] at *
    push_cast
    linarith

theorem mul_le_sumBy (g : List ARow) (f : ARow → ℚ) (lo : ℚ)
    (h : ∀ r ∈ g, lo ≤ f r) : (g.length : ℚ) * lo ≤ sumBy g f := by
  induction g with
  | nil => simp [sumBy]
  | cons r rs ih =>
    have h1 := h r (List.mem_cons_self r rs)
    have h2 := ih (fun x hx => h x (List.mem_cons_of_mem r hx))
    simp only [sumBy, List.map_cons, List.sum_cons, List.length_cons] at *
    push_cast
    linarith

theorem length_pos_q {g : List ARow} (hne : g ≠ []) : (0 : ℚ) < (g.length : ℚ) := by
  have : 0 < g.length := List.length_pos.mpr hne
  exact_mod_cast this

theorem meanBy_le (g : List ARow) (f : ARow → ℚ) (hi : ℚ) (hne : g ≠ [])
    (h : ∀ r ∈ g, f r ≤ hi) : meanBy g f ≤ hi := by
  rw [meanBy, div_le_iff₀ (length_pos_q hne)]
  calc sumBy g f ≤ (g.length : ℚ) * hi := sumBy_le_mul g f hi h
    _ = hi * (g.length : ℚ) := mul_comm _ _

theorem le_meanBy (g : List ARow) (f : ARow → ℚ) (lo : ℚ) (hne : g ≠ [])
    (h : ∀ r ∈ g, lo ≤ f r) : lo ≤ meanBy g f := by
  rw [meanBy, le_div_iff₀ (length_pos_q hne)]
  calc lo * (g.length : ℚ) = (g.length : ℚ) * lo := mul_comm _ _
    _ ≤ sumBy g f := mul_le_sumBy g f lo h

theorem meanBy_pos (g : List ARow) (f : ARow → ℚ) (hne : g ≠ [])
    (h0 : ∀ r ∈ g, 0 ≤ f r) {r : ARow} (hr : r ∈ g) (hp : 0 < f r) :
    0 < meanBy g f :=
  div_pos (sumBy_pos g f h0 hr hp) (length_pos_q hne)

theorem le_foldl_max : ∀ (xs : List ℚ) (x : ℚ), x ≤ xs.foldl max x := by
  intro xs
  induction xs with
  | nil => intro x; exact le_refl x
  | cons y ys ih =>
    intro x
    calc x ≤ max x y := le_max_left x y
      _ ≤ (y :: ys).tail.foldl max (max x y) := ih (max x y)

theorem mem_le_foldl_max : ∀ (xs : List ℚ) (x a : ℚ), a ∈ xs → a ≤ xs.foldl max x := by
  intro xs
  induction xs with
  | nil => intro x a ha; exact absurd ha (List.not_mem_nil a)
  | cons y ys ih =>
    intro x a ha
    rcases List.mem_cons.mp ha with rfl | hm
    · calc a ≤ max x a := le_max_right x a
        _ ≤ ys.foldl max (max x a) := le_foldl_max ys (max x a)
    · exact ih (max x y) a hm

theorem le_maxQ {l : List ℚ} {a : ℚ} (h : a ∈ l) : a ≤ maxQ l := by
  cases l with
  | nil => exact absurd h (List.not_mem_nil a)
  | cons x xs =>
    rcases List.mem_cons.mp h with rfl | hm
    · exact le_foldl_max xs a
    · exact mem_le_foldl_max xs x a hm

theorem insertQ_length (x : ℚ) : ∀ l : List ℚ, (insertQ x l).length = l.length + 1 := by
  intro l
  induction l with
  | nil => rfl
  | cons y ys ih =>
    simp only [insertQ]
    split_ifs
    · rfl
    · simp [ih]

theorem sortQ_length (l : List ℚ) : (sortQ l).length = l.length := by
  induction l with
  | nil => rfl
  | cons x xs ih =>
    show (insertQ x (sortQ xs)).length = xs.length + 1
    rw [insertQ_length, ih]

theorem medianQ_isSome {l : List ℚ} (h : l ≠ []) : ∃ m, medianQ l = some m := by
  have hn : (sortQ l).length ≠ 0 := by
    rw [sortQ_length]
    exact fun he => h (List.length_eq_zero.mp he)
  simp only [medianQ]
  split_ifs with h0 h1
  · exact absurd h0 hn
  · exact ⟨_, rfl⟩
  · exact ⟨_, rfl⟩

theorem filterMap_id_ne_nil {L : List (Option ℚ)} {o : Option ℚ} {v : ℚ}
    (hm : o ∈ L) (hv : o = some v) : L.filterMap id ≠ [] := by
  intro he
  have : v ∈ L.filterMap id := by
    apply List.mem_filterMap.mpr
    exact ⟨o, hm, by rw [hv]; rfl⟩
  rw [he] at this
  exact List.not_mem_nil v this

theorem pageGroup_subset {l : List ARow} {p : String} {r : ARow}
    (h : r ∈ pageGroup l p) : r ∈ l :=
  (List.mem_filter.mp h).1

theorem pageGroup_page {l : List ARow} {p : String} {r : ARow}
    (h : r ∈ pageGroup l p) : r.page = p := by
  have := (List.mem_filter.mp h).2
  simpa using this

theorem self_mem_pageGroup {l : List ARow} {r : ARow} (h : r ∈ l) :
    r ∈ pageGroup l r.page :=
  List.mem_filter.mpr ⟨h, by simp⟩

theorem pageGroup_ne_nil {l : List ARow} {p : String} (h : p ∈ pageKeys l) :
    pageGroup l p ≠ [] := by
  have hp : p ∈ l.map (·.page) := mem_of_mem_dropDupAux _ [] p h
  obtain ⟨r, hr, hrp⟩ := List.mem_map.mp hp
  intro he
  have : r ∈ pageGroup l p := List.mem_filter.mpr ⟨hr, by simp [hrp]⟩
  rw [he] at this
  exact List.not_mem_nil r this

theorem page_mem_pageKeys {l : List ARow} {r : ARow} (h : r ∈ l) :
    r.page ∈ pageKeys l :=
  mem_dropDup_of_mem (List.mem_map.mpr ⟨r, h, rfl⟩)

/-- Decompose membership in the page-aggregate table. -/
theorem mem_page_aggs {l : List ARow} {a : PageAgg} (h : a ∈ page_aggs l) :
    a.page ∈ pageKeys l ∧
    a.sessions = sumBy (pageGroup l a.page) (·.sessions) ∧
    a.conversions = sumBy (pageGroup l a.page) (·.conversions) ∧
    a.bounce_rate = meanBy (pageGroup l a.page) (·.bounce_rate) ∧
    a.avg_session_duration = meanBy (pageGroup l a.page) (·.avg_session_duration) := by
  simp only [page_aggs, List.mem_map] at h
  obtain ⟨p, hp, rfl⟩ := h
  exact ⟨hp, rfl, rfl, rfl, rfl⟩

/-- Decompose membership in the final page_stats table. -/
theorem mem_analyze_page_performance {l : List ARow} {st : PageStat}
    (h : st ∈ analyze_page_performance l) :
    ∃ a ∈ page_aggs l,
      st.page = a.page ∧ st.sessions = a.sessions ∧ st.conversions = a.conversions ∧
      st.bounce_rate = a.bounce_rate ∧
      st.avg_session_duration = a.avg_session_duration ∧
      st.conversion_rate = div_rate a.conversions a.sessions ∧
      st.quality_score = quality_score_of a.bounce_rate
        (div_rate a.conversions a.sessions) a.avg_session_duration
        (max_session_duration l) ∧
      st.category = categorize_page a.sessions (div_rate a.conversions a.sessions)
        (median_sessions l) (median_conversion_rate l) := by
  simp only [analyze_page_performance, List.mem_map] at h
  obtain ⟨a, ha, rfl⟩ := h
  exact ⟨a, ha, rfl, rfl, rfl, rfl, rfl, rfl, rfl, rfl⟩

/-- Every page aggregate of a table whose rows all have positive
sessions has a positive sessions sum. -/
theorem page_aggs_sessions_pos {l : List ARow} (hpos : ∀ r ∈ l, 0 < r.sessions)
    {a : PageAgg} (ha : a ∈ page_aggs l) : 0 < a.sessions := by
  obtain ⟨hp, hs, -⟩ := mem_page_aggs ha
  rw [hs]
  exact sumBy_all_pos _ _ (pageGroup_ne_nil hp)
    (fun r hr => hpos r (pageGroup_subset hr))

/-- A non-empty table has a non-empty page-aggregate table. -/
theorem page_aggs_ne_nil {l : List ARow} (h : l ≠ []) : page_aggs l ≠ [] := by
  cases l with
  | nil => exact absurd rfl h
  | cons r rs =>
    have hk : r.page ∈ pageKeys (r :: rs) := page_mem_pageKeys (List.mem_cons_self r rs)
    intro he
    have : pageKeys (r :: rs) = [] := by
      have := congrArg List.length he
      simp only [page_aggs, List.length_map, List.length_nil] at this
      exact List.length_eq_zero.mp this
    rw [this] at hk
    exact List.not_mem_nil _ hk

/-- The conversion rate of a keyed dimensional aggregate row is
undefined whenever its summed sessions are 0 (the division at app.py
lines 123, 138, 151, 454 has no guard). -/
theorem dimStats_rate_none {κ : Type} [DecidableEq κ] {l : List ARow} {key : ARow → κ}
    {st : DimStat κ} (h : st ∈ dimStats l key) (hz : st.sessions = 0) :
    st.conversion_rate = none := by
  simp only [dimStats, List.mem_map] at h
  obtain ⟨k, hk, rfl⟩ := h
  simp only at hz ⊢
  simp [div_rate, hz]

/-- C2 (counterexample).  A page grouping over a zero-session record
produces an aggregate whose summed sessions are 0 but whose
conversion_rate is undefined (NaN from the unguarded division), not 0. -/
theorem conversion_rate_guard_counterexample :
    (analyze_page_performance [zeroSessionsARow]).map (·.sessions) = [0] ∧
    (analyze_page_performance [zeroSessionsARow]).map (·.conversion_rate) = [none] := by
  norm_num [analyze_page_performance, page_aggs, pageKeys, pageGroup, dropDup, dropDupAux,
    sumBy, meanBy, div_rate, max_session_duration, maxQ, median_sessions,
    median_conversion_rate, medianSkipNa, medianQ, sortQ, insertQ, quality_score_of,
    categorize_page, geMed, ltMed, geCell, ltCell, zeroSessionsARow]

/-- C2 (amended).  Only the overall KPI aggregator guards the
conversion-rate division: there a zero (or non-positive) session total
gives conversion_rate 0 and the value is always defined.  In each of
the five dimensional groupings (page, device, country, day, hour) the
division is unguarded, and a group with session sum 0 has an undefined
(NaN) conversion rate. -/
theorem conversion_rate_guard_amended :
    (∀ l : List ARow, sumBy l (·.sessions) = 0 →
      (calculate_kpis l).conversion_rate = 0) ∧
    (∀ (l : List ARow) (st : PageStat), st ∈ analyze_page_performance l →
      st.sessions = 0 → st.conversion_rate = none) ∧
    (∀ (l : List ARow) (st : DimStat String), st ∈ analyze_device_performance l →
      st.sessions = 0 → st.conversion_rate = none) ∧
    (∀ (l : List ARow) (st : DimStat String), st ∈ analyze_country_performance l →
      st.sessions = 0 → st.conversion_rate = none) ∧
    (∀ (l : List ARow) (st : DimStat Nat), st ∈ analyze_time_trends l →
      st.sessions = 0 → st.conversion_rate = none) ∧
    (∀ (l : List ARow) (st : DimStat Nat), st ∈ hourly_performance l →
      st.sessions = 0 → st.conversion_rate = none) := by
  refine ⟨?_, ?_, ?_, ?_, ?_, ?_⟩
  · intro l h
    simp [calculate_kpis, h]
  · intro l st h hz
    obtain ⟨a, ha, -, hs, -, -, -, hcr, -⟩ := mem_analyze_page_performance h
    rw [hcr, div_rate, if_pos (hs ▸ hz)]
  · intro l st h hz
    exact dimStats_rate_none h hz
  · intro l st h hz
    exact dimStats_rate_none h hz
  · intro l st h hz
    exact dimStats_rate_none h hz
  · intro l st h hz
    exact dimStats_rate_none h hz

/-- Witness: the amended statement instantiated on concrete one-record
tables whose session sums are zero. -/
theorem conversion_rate_guard_amended_witness :
    (calculate_kpis [zeroSessionsARow]).conversion_rate = 0 ∧
    zeroPageStat.conversion_rate = none ∧
    zeroDevStat.conversion_rate = none ∧
    zeroCountryStat.conversion_rate = none ∧
    zeroDayStat.conversion_rate = none ∧
    zeroHourStat.conversion_rate = none :=
  ⟨conversion_rate_guard_amended.1 [zeroSessionsARow] (by simp [sumBy, zeroSessionsARow]),
   conversion_rate_guard_amended.2.1 [zeroSessionsARow] zeroPageStat
     (by norm_num [analyze_page_performance, page_aggs, pageKeys, pageGroup, dropDup,
       dropDupAux, sumBy, meanBy, div_rate, max_session_duration, maxQ, median_sessions,
       median_conversion_rate, medianSkipNa, medianQ, sortQ, insertQ, quality_score_of,
       categorize_page, geMed, ltMed, geCell, ltCell, zeroSessionsARow, zeroPageStat])
     (by norm_num [zeroPageStat]),
   conversion_rate_guard_amended.2.2.1 [zeroSessionsARow] zeroDevStat
     (by norm_num [analyze_device_performance, dimStats, dropDup, dropDupAux, sumBy,
       meanBy, div_rate, zeroSessionsARow, zeroDevStat])
     (by norm_num [zeroDevStat]),
   conversion_rate_guard_amended.2.2.2.1 [zeroSessionsARow] zeroCountryStat
     (by norm_num [analyze_country_performance, dimStats, dropDup, dropDupAux, sumBy,
       meanBy, div_rate, zeroSessionsARow, zeroCountryStat, zeroDevStat])
     (by norm_num [zeroCountryStat, zeroDevStat]),
   conversion_rate_guard_amended.2.2.2.2.1 [zeroSessionsARow] zeroDayStat
     (by norm_num [analyze_time_trends, dimStats, dropDup, dropDupAux, sumBy,
       meanBy, div_rate, zeroSessionsARow, zeroDayStat])
     (by norm_num [zeroDayStat]),
   conversion_rate_guard_amended.2.2.2.2.2 [zeroSessionsARow] zeroHourStat
     (by norm_num [hourly_performance, dimStats, dropDup, dropDupAux, sumBy,
       meanBy, div_rate, zeroSessionsARow, zeroHourStat, zeroDayStat])
     (by norm_num [zeroHourStat, zeroDayStat])⟩

/-- The normalization constant of the quality score is positive as soon
as durations are non-negative and some record has a positive one. -/
theorem max_session_duration_pos {l : List ARow}
    (hd : ∀ r ∈ l, 0 ≤ r.avg_session_duration)
    {r0 : ARow} (hr0 : r0 ∈ l) (hp : 0 < r0.avg_session_duration) :
    0 < max_session_duration l := by
  have hk : r0.page ∈ pageKeys l := page_mem_pageKeys hr0
  have hgne : pageGroup l r0.page ≠ [] := pageGroup_ne_nil hk
  have hmean : 0 < meanBy (pageGroup l r0.page) (·.avg_session_duration) :=
    meanBy_pos _ _ hgne (fun r hr => hd r (pageGroup_subset hr))
      (self_mem_pageGroup hr0) hp
  have hmem : meanBy (pageGroup l r0.page) (·.avg_session_duration) ∈
      (page_aggs l).map (·.avg_session_duration) := by
    simp only [page_aggs, List.map_map]
    exact List.mem_map.mpr ⟨r0.page, hk, rfl⟩
  exact lt_of_lt_of_le hmean (le_maxQ hmem)

/-- C5 (counterexample).  On raw data the quality score is not bounded
by 100: a page whose conversions exceed its sessions (the validator
only warns about such records, and the dashboard loads them uncleaned)
has conversion rate 200 and quality score 140. -/
theorem quality_score_range_counterexample :
    (analyze_page_performance [overConvARow]).map (·.quality_score) = [some 140] ∧
    ¬ (140 : ℚ) ≤ 100 := by
  constructor
  · norm_num [analyze_page_performance, page_aggs, pageKeys, pageGroup, dropDup,
      dropDupAux, sumBy, meanBy, div_rate, max_session_duration, maxQ, median_sessions,
      median_conversion_rate, medianSkipNa, medianQ, sortQ, insertQ, quality_score_of,
      categorize_page, geMed, ltMed, geCell, ltCell, overConvARow, zeroSessionsARow]
  · norm_num

/-- C5 (amended).  On any page-aggregate input computed from rows that
already satisfy the cleaned-data invariants (bounce rate in [0,1],
0 ≤ conversions ≤ sessions, sessions > 0, non-negative durations) and
that contains at least one positive duration, every quality score is
defined, equals the specified weighted formula, and lies in [0, 100]. -/
theorem quality_score_formula_amended (l : List ARow)
    (hwf : ∀ r ∈ l, 0 ≤ r.bounce_rate ∧ r.bounce_rate ≤ 1 ∧ 0 < r.sessions ∧
      0 ≤ r.conversions ∧ r.conversions ≤ r.sessions ∧ 0 ≤ r.avg_session_duration)
    (hdur : ∃ r ∈ l, 0 < r.avg_session_duration) :
    ∀ st ∈ analyze_page_performance l, ∃ cr q,
      st.conversion_rate = some cr ∧ st.quality_score = some q ∧
      q = 100 * (0.3 * (1 - st.bounce_rate) + 0.4 * (cr / 100) +
        0.3 * (st.avg_session_duration / max_session_duration l)) ∧
      0 ≤ q ∧ q ≤ 100 := by
  obtain ⟨r0, hr0, hp0⟩ := hdur
  have hdmax : 0 < max_session_duration l :=
    max_session_duration_pos (fun r hr => (hwf r hr).2.2.2.2.2) hr0 hp0
  intro st hst
  obtain ⟨a, ha, hpg, hs, hc, hb, hd, hcr, hq, -⟩ := mem_analyze_page_performance hst
  obtain ⟨hk, has, hac, hab, had⟩ := mem_page_aggs ha
  have hgne := pageGroup_ne_nil hk
  have hsub : ∀ r ∈ pageGroup l a.page, r ∈ l := fun r hr => pageGroup_subset hr
  have hspos : 0 < a.sessions := by
    rw [has]
    exact sumBy_all_pos _ _ hgne (fun r hr => (hwf r (hsub r hr)).2.2.1)
  have hcnn : 0 ≤ a.conversions := by
    rw [hac]
    exact sumBy_nonneg _ _ (fun r hr => (hwf r (hsub r hr)).2.2.2.1)
  have hcls : a.conversions ≤ a.sessions := by
    rw [hac, has]
    exact sumBy_le_sumBy _ _ _ (fun r hr => (hwf r (hsub r hr)).2.2.2.2.1)
  have hb0 : 0 ≤ a.bounce_rate := by
    rw [hab]
    exact le_meanBy _ _ _ hgne (fun r hr => (hwf r (hsub r hr)).1)
  have hb1 : a.bounce_rate ≤ 1 := by
    rw [hab]
    exact meanBy_le _ _ _ hgne (fun r hr => (hwf r (hsub r hr)).2.1)
  have hd0 : 0 ≤ a.avg_session_duration := by
    rw [had]
    exact le_meanBy _ _ _ hgne (fun r hr => (hwf r (hsub r hr)).2.2.2.2.2)
  have hdle : a.avg_session_duration ≤ max_session_duration l :=
    le_maxQ (List.mem_map.mpr ⟨a, ha, rfl⟩)
  have hx0 : 0 ≤ a.conversions / a.sessions := div_nonneg hcnn (le_of_lt hspos)
  have hx1 : a.conversions / a.sessions ≤ 1 := (div_le_one hspos).mpr hcls
  have hn0 : 0 ≤ a.avg_session_duration / max_session_duration l :=
    div_nonneg hd0 (le_of_lt hdmax)
  have hn1 : a.avg_session_duration / max_session_duration l ≤ 1 :=
    (div_le_one hdmax).mpr hdle
  refine ⟨a.conversions / a.sessions * 100,
    ((1 - a.bounce_rate) * 0.3 + (a.conversions / a.sessions * 100 / 100) * 0.4 +
      (a.avg_session_duration / max_session_duration l) * 0.3) * 100,
    ?_, ?_, ?_, ?_, ?_⟩
  · rw [hcr, div_rate, if_neg (ne_of_gt hspos)]
  · rw [hq, div_rate, if_neg (ne_of_gt hspos)]
    simp [quality_score_of, if_neg (ne_of_gt hdmax)]
  · rw [hb, hd]
    ring
  · have he : ((1 - a.bounce_rate) * 0.3 +
        (a.conversions / a.sessions * 100 / 100) * 0.4 +
        (a.avg_session_duration / max_session_duration l) * 0.3) * 100 =
        30 * (1 - a.bounce_rate) + 40 * (a.conversions / a.sessions) +
        30 * (a.avg_session_duration / max_session_duration l) := by ring
    rw [he]
    linarith
  · have he : ((1 - a.bounce_rate) * 0.3 +
        (a.conversions / a.sessions * 100 / 100) * 0.4 +
        (a.avg_session_duration / max_session_duration l) * 0.3) * 100 =
        30 * (1 - a.bounce_rate) + 40 * (a.conversions / a.sessions) +
        30 * (a.avg_session_duration / max_session_duration l) := by ring
    rw [he]
    linarith

/-- Witness: the amended statement at the concrete well-formed
one-record table, whose page scores 70. -/
theorem quality_score_formula_amended_witness :
    okPageStat ∈ analyze_page_performance [okARow] ∧
    (∃ cr q, okPageStat.conversion_rate = some cr ∧ okPageStat.quality_score = some q ∧
      q = 100 * (0.3 * (1 - okPageStat.bounce_rate) + 0.4 * (cr / 100) +
        0.3 * (okPageStat.avg_session_duration / max_session_duration [okARow])) ∧
      0 ≤ q ∧ q ≤ 100) :=
  have hmem : okPageStat ∈ analyze_page_performance [okARow] := by
    norm_num [analyze_page_performance, page_aggs, pageKeys, pageGroup, dropDup,
      dropDupAux, sumBy, meanBy, div_rate, max_session_duration, maxQ, median_sessions,
      median_conversion_rate, medianSkipNa, medianQ, sortQ, insertQ, quality_score_of,
      categorize_page, geMed, ltMed, geCell, ltCell, okARow, zeroSessionsARow, okPageStat,
      List.filterMap_cons, List.filterMap_nil, id_eq]
  ⟨hmem,
   quality_score_formula_amended [okARow]
     (by norm_num [okARow, zeroSessionsARow])
     ⟨okARow, by simp, by norm_num [okARow, zeroSessionsARow]⟩
     okPageStat hmem⟩

/-- In any page_stats table the four category counts add up to the
number of rows: the categories are pairwise disjoint and jointly
exhaustive, each row carrying exactly one. -/
theorem countP_category_partition (out : List PageStat) :
    out.countP (fun st => decide (st.category = Category.starPerformers)) +
    out.countP (fun st => decide (st.category = Category.highTrafficLowConversion)) +
    out.countP (fun st => decide (st.category = Category.hiddenGems)) +
    out.countP (fun st => decide (st.category = Category.needsAttention)) =
    out.length := by
  induction out with
  | nil => rfl
  | cons st rest ih =>
    simp only [List.countP_cons, List.length_cons]
    cases hc : st.category <;> simp [hc] <;> omega

/-- C3 (counterexample).  The tie-at-median rule fails on a
zero-session page: its sessions (0) equal the median sessions, yet its
NaN conversion rate makes both median comparisons false and the page
lands in NeedsAttention instead of a high-sessions bucket. -/
theorem categorization_tie_counterexample :
    median_sessions [zeroSessionsARow] = some 0 ∧
    (analyze_page_performance [zeroSessionsARow]).map (·.sessions) = [0] ∧
    (analyze_page_performance [zeroSessionsARow]).map (·.category) =
      [Category.needsAttention] := by
  norm_num [analyze_page_performance, page_aggs, pageKeys, pageGroup, dropDup, dropDupAux,
    sumBy, meanBy, div_rate, max_session_duration, maxQ, median_sessions,
    median_conversion_rate, medianSkipNa, medianQ, sortQ, insertQ, quality_score_of,
    categorize_page, geMed, ltMed, geCell, ltCell, zeroSessionsARow,
    List.filterMap_cons, List.filterMap_nil, id_eq]

/-- C3 (amended).  For every non-empty input the categorizer gives each
page exactly one of the four categories and the four categories
partition the page set (the counts add up to the page count).  The
tie-goes-high rule holds whenever every row has positive sessions (so
that every page's conversion rate and both medians are defined); with
zero-session pages the NaN conversion rate makes both comparisons false
and a tie can fall through to NeedsAttention. -/
theorem categorization_partition_amended (l : List ARow) (hne : l ≠ []) :
    (∀ st ∈ analyze_page_performance l,
      st.category = Category.starPerformers ∨
      st.category = Category.highTrafficLowConversion ∨
      st.category = Category.hiddenGems ∨
      st.category = Category.needsAttention) ∧
    ((analyze_page_performance l).countP
        (fun st => decide (st.category = Category.starPerformers)) +
      (analyze_page_performance l).countP
        (fun st => decide (st.category = Category.highTrafficLowConversion)) +
      (analyze_page_performance l).countP
        (fun st => decide (st.category = Category.hiddenGems)) +
      (analyze_page_performance l).countP
        (fun st => decide (st.category = Category.needsAttention)) =
      (analyze_page_performance l).length) ∧
    (analyze_page_performance l).length = (pageKeys l).length ∧
    ((∀ r ∈ l, 0 < r.sessions) → ∀ st ∈ analyze_page_performance l,
      (median_sessions l = some st.sessions →
        st.category = Category.starPerformers ∨
        st.category = Category.highTrafficLowConversion) ∧
      (st.conversion_rate = median_conversion_rate l →
        st.category = Category.starPerformers ∨
        st.category = Category.hiddenGems)) := by
  refine ⟨?_, countP_category_partition _, ?_, ?_⟩
  · intro st _
    cases st.category
    · exact Or.inl rfl
    · exact Or.inr (Or.inl rfl)
    · exact Or.inr (Or.inr (Or.inl rfl))
    · exact Or.inr (Or.inr (Or.inr rfl))
  · simp [analyze_page_performance, page_aggs]
  · intro hpos st hst
    obtain ⟨a, ha, -, hs, -, -, -, hcr, -, hcat⟩ := mem_analyze_page_performance hst
    have hspos : 0 < a.sessions := page_aggs_sessions_pos hpos ha
    have hcrv : div_rate a.conversions a.sessions =
        some (a.conversions / a.sessions * 100) := by
      rw [div_rate, if_neg (ne_of_gt hspos)]
    have hansome : ∀ a' ∈ page_aggs l, div_rate a'.conversions a'.sessions =
        some (a'.conversions / a'.sessions * 100) := by
      intro a' ha'
      rw [div_rate, if_neg (ne_of_gt (page_aggs_sessions_pos hpos ha'))]
    have hmedcr : ∃ m, median_conversion_rate l = some m := by
      unfold median_conversion_rate medianSkipNa
      apply medianQ_isSome
      exact filterMap_id_ne_nil
        (List.mem_map.mpr ⟨a, ha, rfl⟩) (hansome a ha)
    have hmeds : ∃ m, median_sessions l = some m := by
      unfold median_sessions
      apply medianQ_isSome
      intro he
      have : page_aggs l = [] := List.map_eq_nil_iff.mp he
      exact page_aggs_ne_nil hne this
    obtain ⟨mc, hmc⟩ := hmedcr
    obtain ⟨ms, hms⟩ := hmeds
    constructor
    · intro htie
      rw [hs] at htie
      rw [hcat, hcrv, htie]
      by_cases hxm : mc ≤ a.conversions / a.sessions * 100
      · left
        rw [hmc]
        simp [categorize_page, geMed, geCell, hxm]
      · right
        rw [hmc]
        simp [categorize_page, geMed, geCell, ltCell, hxm, lt_of_not_le hxm]
    · intro htie
      rw [hcr, hcrv] at htie
      rw [hcat, hcrv, hms, ← htie, hmc] at *
      by_cases hsm : ms ≤ a.sessions
      · left
        simp [categorize_page, geMed, geCell, hsm, ← htie, hmc]
      · right
        simp [categorize_page, geMed, geCell, ltMed, hsm, lt_of_not_le hsm,
          ← htie, hmc]

/-- Witness: the amended statement on the concrete one-page table. -/
theorem categorization_partition_amended_witness :
    ([okARow] ≠ ([] : List ARow)) ∧
    ((∀ st ∈ analyze_page_performance [okARow],
      st.category = Category.starPerformers ∨
      st.category = Category.highTrafficLowConversion ∨
      st.category = Category.hiddenGems ∨
      st.category = Category.needsAttention) ∧
    ((analyze_page_performance [okARow]).countP
        (fun st => decide (st.category = Category.starPerformers)) +
      (analyze_page_performance [okARow]).countP
        (fun st => decide (st.category = Category.highTrafficLowConversion)) +
      (analyze_page_performance [okARow]).countP
        (fun st => decide (st.category = Category.hiddenGems)) +
      (analyze_page_performance [okARow]).countP
        (fun st => decide (st.category = Category.needsAttention)) =
      (analyze_page_performance [okARow]).length) ∧
    (analyze_page_performance [okARow]).length = (pageKeys [okARow]).length ∧
    ((∀ r ∈ [okARow], 0 < r.sessions) → ∀ st ∈ analyze_page_performance [okARow],
      (median_sessions [okARow] = some st.sessions →
        st.category = Category.starPerformers ∨
        st.category = Category.highTrafficLowConversion) ∧
      (st.conversion_rate = median_conversion_rate [okARow] →
        st.category = Category.starPerformers ∨
        st.category = Category.hiddenGems))) :=
  ⟨by simp, categorization_partition_amended [okARow] (by simp)⟩
